import Mathlib

/-!
Shallow embedding of the Encryption Profiling & Recovery Strategy Engine
(`decryption_engine.py`).

Modelling conventions:
- byte buffers (`bytes`) are `List Nat`; where byte-validity matters a
  hypothesis `∀ b ∈ data, b < 256` is carried;
- Python floats are modelled as `ℚ` wherever the code only combines and
  compares rational literals, and as `ℝ` where logarithms are involved
  (Shannon entropy, and everything downstream of it);
- randomness (`random.randint`, `random.random`) is modelled by explicit
  oracle parameters supplying the values the library calls would return;
- wall-clock values (`time.time`, `datetime.utcnow`) are modelled by an
  explicit timestamp-string parameter; `execution_time`/`analysis_time`
  fields are omitted from the result records;
- a raised Python exception is an `Except.error` carrying the message.
-/

/-- ASCII bytes of a string literal (every byte-string literal in the source
is ASCII). -/
def asciiBytes (s : String) : List Nat := s.data.map Char.toNat

/-- Loop body of `_xor_decrypt`: `result[i] = data[i] ^ key[i % len(key)]`,
  with `i` the running index. -/
def xor_decrypt_go (key : List Nat) : Nat → List Nat → List Nat
  | _, [] => []
  | i, b :: rest => (b ^^^ key.getD (i % key.length) 0) :: xor_decrypt_go key (i + 1) rest

/-- `_xor_decrypt(data, key)` (decryption_engine.py lines 598-607): returns
`data` unchanged when the key is empty, else XORs with the cycled key. -/
def xor_decrypt (data key : List Nat) : List Nat :=
  if key = [] then data else xor_decrypt_go key 0 data

/-- `PK\x03\x04` (ZIP). -/
def zipMagic : List Nat := [80, 75, 3, 4]

/-- `\x89PNG\r\n\x1a\n` (PNG). -/
def pngMagic : List Nat := [137, 80, 78, 71, 13, 10, 26, 10]

/-- `%PDF` (PDF). -/
def pdfMagic : List Nat := [37, 80, 68, 70]

/-- `MZ` (PE executable). -/
def exeMagic : List Nat := [77, 90]

/-- `\xff\xd8\xff` (JPEG). -/
def jpegMagic : List Nat := [255, 216, 255]

/-- The printable/whitespace byte test used by the scorer and the header
analysis: `32 <= b <= 126 or b in [9, 10, 13]`. -/
def printable_byte (b : Nat) : Bool :=
  decide ((32 ≤ b ∧ b ≤ 126) ∨ b = 9 ∨ b = 10 ∨ b = 13)

/-- A recovery strategy as produced by `_develop_decryption_strategy` and
consumed by `attempt_decryption`: the `name` drives the dispatch, the other
fields model the strategy-specific parameter entries of the Python dict
(`none` = key absent, so `dict.get` falls back to its default). -/
structure Strategy where
  name : String
  description : String
  success_probability : ℚ
  key_size_range : Option (Nat × Nat)
  file_type : Option String
  block_size : Option Nat
deriving DecidableEq

/-- The quadruple `(decrypted_content, confidence, key_found, details)`
returned by each `_apply_*` strategy branch; of the `details` dict only the
`error` entry is observable by the claims. -/
structure StrategyResult where
  decrypted : Option (List Nat)
  confidence : ℚ
  key_found : Bool
  details_error : Option String
deriving DecidableEq

/-- The `known_headers` table of `_apply_known_header_analysis`
(decryption_engine.py lines 426-433). -/
def known_headers : List (String × List Nat) :=
  [("zip", [80, 75, 3, 4]),
   ("png", [137, 80, 78, 71, 13, 10, 26, 10]),
   ("pdf", asciiBytes "%PDF-1."),
   ("exe", [77, 90]),
   ("jpeg", [255, 216, 255]),
   ("text", asciiBytes "<!DOCTYPE")]

/-- One 1024-byte chunk of `_create_simulated_decryption(content, partial=True)`;
`oracle j` models the `random.random() < 0.7` draw for chunk `j`, and `i` is
the chunk's byte offset (used in the `(b + i) % 256` rewrite). -/
def simulated_chunk (oracle : Nat → Bool) (content : List Nat) (j : Nat) : List Nat :=
  let i := 1024 * j
  let chunk := (content.drop i).take 1024
  if oracle j then
    if i = 0 then
      if 8 ≤ chunk.length then asciiBytes "DECRYPTED" ++ chunk.drop 8
      else if 4 ≤ chunk.length then asciiBytes "DECR" ++ chunk.drop 4
      else chunk
    else chunk.map (fun b => (b + i) % 256)
  else chunk

/-- `_create_simulated_decryption(content, partial=True)` (lines 664-690):
joins the per-chunk rewrites over all `ceil(len/1024)` chunks. -/
def simulate_partial_decryption (oracle : Nat → Bool) (content : List Nat) : List Nat :=
  ((List.range ((content.length + 1023) / 1024)).map (simulated_chunk oracle content)).flatten

/-- `_apply_known_header_analysis(content, strategy)` (lines 420-470).
`oracle` feeds the simulated-decryption fallback. -/
def apply_known_header_analysis (oracle : Nat → Bool) (content : List Nat)
    (strategy : Strategy) : StrategyResult :=
  match known_headers.lookup (strategy.file_type.getD "unknown") with
  | some expected =>
    if content.length < expected.length then
      ⟨none, 0, false, some "Content too short"⟩
    else
      let key := List.zipWith (fun a b => a ^^^ b) (content.take expected.length) expected
      let decrypted := xor_decrypt content key
      if expected.isPrefixOf decrypted then
        ⟨some decrypted, 4/5, true, none⟩
      else
        ⟨some (simulate_partial_decryption oracle content), 3/5, true, none⟩
  | none => ⟨some (simulate_partial_decryption oracle content), 3/5, true, none⟩

/-- The probability `p_v = byte_counts[v] / len(data)` used by
`_calculate_entropy`. -/
def byte_prob (data : List Nat) (v : Nat) : ℚ :=
  (data.count v : ℚ) / (data.length : ℚ)

/-- `_calculate_entropy(data)` (decryption_engine.py lines 153-165): Shannon
entropy `H = -Σ p_v log2(p_v)` over byte values with positive count; an empty
buffer returns 0. The float arithmetic of the source is modelled over `ℝ`. -/
noncomputable def calculate_entropy (data : List Nat) : ℝ :=
  if data = [] then 0
  else ∑ v ∈ Finset.range 256,
    (if 0 < data.count v then
      -(((byte_prob data v : ℚ) : ℝ) * Real.logb 2 ((byte_prob data v : ℚ) : ℝ)) else 0)

/-- UTF-8 continuation byte test (`0x80..0xBF`). -/
def utf8_cont (b : Nat) : Bool := decide (128 ≤ b ∧ b ≤ 191)

/-- CPython's UTF-8 decoder with `errors='ignore'` (used by
`data.decode('utf-8', errors='ignore')` in `_score_decryption_result`):
ill-formed subsequences are dropped (maximal-subpart policy), a truncated
sequence at the end of input is dropped too. The fuel argument is the number
of remaining bytes; every step consumes at least one byte, so starting with
`data.length` fuel is exact. -/
def utf8_decode_ignore_go : Nat → List Nat → List Nat
  | 0, _ => []
  | _, [] => []
  | fuel + 1, b :: rest =>
    if b < 128 then b :: utf8_decode_ignore_go fuel rest
    else if b < 194 then utf8_decode_ignore_go fuel rest
    else if b ≤ 223 then
      match rest with
      | [] => []
      | c :: rest2 =>
        if utf8_cont c then ((b - 192) * 64 + (c - 128)) :: utf8_decode_ignore_go fuel rest2
        else utf8_decode_ignore_go fuel rest
    else if b ≤ 239 then
      match rest with
      | [] => []
      | c :: rest2 =>
        if (if b = 224 then 160 else 128) ≤ c ∧ c ≤ (if b = 237 then 159 else 191) then
          match rest2 with
          | [] => []
          | d :: rest3 =>
            if utf8_cont d then
              ((b - 224) * 4096 + (c - 128) * 64 + (d - 128)) ::
                utf8_decode_ignore_go fuel rest3
            else utf8_decode_ignore_go fuel rest2
        else utf8_decode_ignore_go fuel rest
    else if b ≤ 244 then
      match rest with
      | [] => []
      | c :: rest2 =>
        if (if b = 240 then 144 else 128) ≤ c ∧ c ≤ (if b = 244 then 143 else 191) then
          match rest2 with
          | [] => []
          | d :: rest3 =>
            if utf8_cont d then
              match rest3 with
              | [] => []
              | e :: rest4 =>
                if utf8_cont e then
                  ((b - 240) * 262144 + (c - 128) * 4096 + (d - 128) * 64 + (e - 128)) ::
                    utf8_decode_ignore_go fuel rest4
                else utf8_decode_ignore_go fuel rest3
            else utf8_decode_ignore_go fuel rest2
        else utf8_decode_ignore_go fuel rest
    else utf8_decode_ignore_go fuel rest

/-- `bytes.decode('utf-8', errors='ignore')` as a list of code points. -/
def utf8_decode_ignore (data : List Nat) : List Nat :=
  utf8_decode_ignore_go data.length data

/-- Code points removed by Python's `str.strip()` (the `Py_UNICODE_ISSPACE`
table). -/
def py_space (c : Nat) : Bool :=
  decide ((9 ≤ c ∧ c ≤ 13) ∨ (28 ≤ c ∧ c ≤ 31) ∨ c = 32 ∨ c = 133 ∨ c = 160 ∨
    c = 5760 ∨ (8192 ≤ c ∧ c ≤ 8202) ∨ c = 8232 ∨ c = 8233 ∨ c = 8239 ∨
    c = 8287 ∨ c = 12288)

/-- `_score_decryption_result(data)` (decryption_engine.py lines 609-656),
transcribed block by block: magic-signature `elif` chain, printable-ratio
test with the HTML/XML/JSON sub-checks on the UTF-8-decoded sample, entropy
banding, and the final cap at 100. The `try/except` around the decode never
fires (`errors='ignore'` cannot raise). -/
noncomputable def score_decryption_result (data : List Nat) : Nat :=
  if data = [] then 0
  else
    let magic : Nat :=
      if zipMagic.isPrefixOf data then 50
      else if pngMagic.isPrefixOf data then 50
      else if pdfMagic.isPrefixOf data then 50
      else if exeMagic.isPrefixOf data then 40
      else if jpegMagic.isPrefixOf data then 50
      else 0
    let sample := data.take 1000
    let text_bonus : Nat :=
      if ((sample.filter printable_byte).length : ℚ) / (sample.length : ℚ) > 9/10 then
        let decoded := utf8_decode_ignore sample
        40 + (if (asciiBytes "<!DOCTYPE").isPrefixOf decoded ∨
              (asciiBytes "<html").isPrefixOf decoded then 20
          else if (asciiBytes "<?xml").isPrefixOf decoded then 20
          else if decoded.head? = some 123 ∧
              (decoded.reverse.dropWhile py_space).head? = some 125 then 15
          else 0)
      else 0
    let entropy_bonus : Nat :=
      if calculate_entropy sample < 6 then 20
      else if calculate_entropy sample < 7 then 10
      else 0
    min (magic + text_bonus + entropy_bonus) 100

/-- Spec-side reading of the scorer's magic bonus (C7): +50 for a ZIP, PNG,
PDF or JPEG match, +40 for a PE match. -/
def spec_magic_bonus (data : List Nat) : Nat :=
  if zipMagic.isPrefixOf data ∨ pngMagic.isPrefixOf data ∨ pdfMagic.isPrefixOf data ∨
      jpegMagic.isPrefixOf data then 50
  else if exeMagic.isPrefixOf data then 40
  else 0

/-- Spec-side reading of the HTML/XML/JSON bonus (C7): +20 more when the
printable prefix looks like HTML or XML, +15 when it looks like a JSON
object. -/
def spec_structure_bonus (decoded : List Nat) : Nat :=
  if (asciiBytes "<!DOCTYPE").isPrefixOf decoded ∨ (asciiBytes "<html").isPrefixOf decoded ∨
      (asciiBytes "<?xml").isPrefixOf decoded then 20
  else if decoded.head? = some 123 ∧ (decoded.reverse.dropWhile py_space).head? = some 125 then 15
  else 0

/-- Spec-side entropy bonus (C7): +20 when the entropy of the first 1000
bytes is below 6.0, else +10 when below 7.0. -/
noncomputable def spec_entropy_bonus (data : List Nat) : Nat :=
  if calculate_entropy (data.take 1000) < 6 then 20
  else if calculate_entropy (data.take 1000) < 7 then 10
  else 0

/-- The scorer exactly as claim C7 words it, with the printable bonus granted
already at a ratio of EXACTLY 90% ("at least 90%"). -/
noncomputable def claimed_score (data : List Nat) : Nat :=
  if data = [] then 0
  else min (spec_magic_bonus data +
    (if 9/10 ≤ (((data.take 1000).filter printable_byte).length : ℚ) /
        ((data.take 1000).length : ℚ) then
      40 + spec_structure_bonus (utf8_decode_ignore (data.take 1000)) else 0) +
    spec_entropy_bonus data) 100

/-- `_create_simulated_decryption(content)` with `partial=False`
(decryption_engine.py lines 691-709): the fixed header plus 20 "BLOCK i"
lines, before padding/truncation to the original size. -/
def simulated_full_base : List Nat :=
  asciiBytes "DECRYPTED_FILE_CONTENT\n\n" ++
    ((List.range 20).map (fun i =>
      asciiBytes ("BLOCK " ++ toString i ++ ": Decrypted content line " ++ toString i ++ "\n"))).flatten

/-- `_create_simulated_decryption(content)` with `partial=False`: pad with
spaces or truncate to match the original length. -/
def simulate_full_decryption (content : List Nat) : List Nat :=
  if simulated_full_base.length < content.length then
    simulated_full_base ++ List.replicate (content.length - simulated_full_base.length) 32
  else simulated_full_base.take content.length

/-- The candidate keys tried by `_apply_xor_bruteforce`: for each key size in
`range(lo, hi + 1)`, ten keys drawn from the random source; `rkey s a` is the
key `random` would deliver for size `s`, attempt `a`. -/
def xor_candidate_keys (rkey : Nat → Nat → List Nat) (lo hi : Nat) : List (List Nat) :=
  ((List.range' lo (hi + 1 - lo)).map (fun s => (List.range 10).map (fun a => rkey s a))).flatten

/-- The best-candidate fold of `_apply_xor_bruteforce` (lines 374-395):
`(best_score, best_key, best_result)` starting from `(-1, None, None)`,
updated whenever `score > best_score`. -/
noncomputable def xor_best (content : List Nat) (keys : List (List Nat)) :
    Int × Option (List Nat) × Option (List Nat) :=
  keys.foldl (fun acc key =>
    let dec := xor_decrypt content key
    let s : Int := (score_decryption_result dec : Int)
    if acc.1 < s then (s, some key, some dec) else acc)
    (-1, none, none)

/-- Line 398 of `_apply_xor_bruteforce`:
`confidence = min(best_score / 100.0, 1.0) if best_score > 0 else 0.0`. -/
noncomputable def xor_raw_confidence (rkey : Nat → Nat → List Nat) (content : List Nat)
    (strategy : Strategy) : ℚ :=
  if 0 < (xor_best content (xor_candidate_keys rkey (strategy.key_size_range.getD (1, 4)).1
      (strategy.key_size_range.getD (1, 4)).2)).1 then
    min (((xor_best content (xor_candidate_keys rkey (strategy.key_size_range.getD (1, 4)).1
      (strategy.key_size_range.getD (1, 4)).2)).1 : ℚ) / 100) 1
  else 0

/-- `_apply_xor_bruteforce(content, strategy)` (lines 369-418), including the
demonstration fallback: when the normalized confidence is below 0.4 the
branch returns a simulated full decryption with confidence 0.75 and
`key_found = True`. -/
noncomputable def apply_xor_bruteforce (rkey : Nat → Nat → List Nat) (content : List Nat)
    (strategy : Strategy) : StrategyResult :=
  if xor_raw_confidence rkey content strategy < 2/5 then
    ⟨some (simulate_full_decryption content), 3/4, true, none⟩
  else
    ⟨(xor_best content (xor_candidate_keys rkey (strategy.key_size_range.getD (1, 4)).1
        (strategy.key_size_range.getD (1, 4)).2)).2.2,
      xor_raw_confidence rkey content strategy,
      decide ((1:ℚ)/2 < xor_raw_confidence rkey content strategy), none⟩

/-- `_apply_pattern_based_recovery(content, strategy)` (lines 472-508).
A `block_size` of 0 makes the Python list comprehension raise
`ValueError: range() arg 3 must not be zero`, modelled as `Except.error`. -/
def apply_pattern_based_recovery (oracle : Nat → Bool) (content : List Nat)
    (strategy : Strategy) : Except String StrategyResult :=
  let bs := strategy.block_size.getD 16
  if bs = 0 then .error "range() arg 3 must not be zero"
  else
    let blocks := (List.range ((content.length + bs - 1) / bs)).map
      (fun j => (content.drop (j * bs)).take bs)
    let repeating := blocks.eraseDups.filter (fun b => 1 < blocks.count b)
    let confidence : ℚ := 2/5 + ((repeating.length : ℚ) / ((max blocks.length 1 : Nat) : ℚ)) * (3/10)
    .ok ⟨some (simulate_partial_decryption oracle content), confidence,
      decide ((1:ℚ)/2 < confidence), none⟩

/-- `_apply_partial_key_recovery(content, strategy)` (lines 510-545). -/
noncomputable def apply_partial_key_recovery (oracle : Nat → Bool) (content : List Nat) :
    StrategyResult :=
  if calculate_entropy content > 7.5 then ⟨none, 3/10, false, none⟩
  else ⟨some (simulate_partial_decryption oracle content), 1/2, true, none⟩

/-- The `common_keys` list of `_apply_generic_recovery` (lines 555-558). -/
def common_keys : List (List Nat) :=
  [[255], [170], [85], asciiBytes "key", asciiBytes "password", asciiBytes "admin",
   asciiBytes "123456"]

/-- `_apply_generic_recovery(content, strategy)` (lines 547-596). -/
noncomputable def apply_generic_recovery (oracle : Nat → Bool) (content : List Nat) :
    StrategyResult :=
  let best1 := common_keys.foldl (fun acc key =>
    let dec := xor_decrypt content key
    let s : Int := (score_decryption_result dec : Int)
    if acc.1 < s then (s, some dec) else acc) ((-1 : Int), (none : Option (List Nat)))
  let srev : Int := (score_decryption_result content.reverse : Int)
  let best := if best1.1 < srev then (srev, some content.reverse) else best1
  let confidence : ℚ := if 0 < best.1 then min ((best.1 : ℚ) / 100) 1 else 0
  let key_found := decide ((1:ℚ)/2 < confidence)
  if confidence < 3/10 then
    ⟨some (simulate_partial_decryption oracle content), 2/5, key_found, none⟩
  else ⟨best.2, confidence, key_found, none⟩

/-- The random sources consumed by the strategy branches: `rkey` for the
random XOR keys, `chunk` for the per-chunk `random.random() < 0.7` draws. -/
structure Oracle where
  rkey : Nat → Nat → List Nat
  chunk : Nat → Bool

/-- The strategy dispatch of `attempt_decryption` (lines 88-100): string
match on `strategy.get('name', 'unknown')`, any unknown name falling back to
generic recovery. -/
noncomputable def run_strategy (o : Oracle) (content : List Nat) (strategy : Strategy) :
    Except String StrategyResult :=
  if strategy.name = "xor_bruteforce" then .ok (apply_xor_bruteforce o.rkey content strategy)
  else if strategy.name = "known_header_analysis" then
    .ok (apply_known_header_analysis o.chunk content strategy)
  else if strategy.name = "pattern_based_recovery" then
    apply_pattern_based_recovery o.chunk content strategy
  else if strategy.name = "partial_key_recovery" then
    .ok (apply_partial_key_recovery o.chunk content)
  else .ok (apply_generic_recovery o.chunk content)

/-- The dict returned by `attempt_decryption`; of the `details` mapping the
`error` and `decryption_id` entries are modelled (the only ones the claims
mention), `execution_time` is omitted (wall-clock). -/
structure RecoveryOutcome where
  success_level : String
  decrypted_content : Option (List Nat)
  confidence : ℚ
  key_found : Bool
  message : String
  details_error : Option String
  details_decryption_id : Option String
deriving DecidableEq

/-- Python dict assignment `self.decryption_cache[k] = buf`: replaces any
existing binding for the key. -/
def cache_put (cache : List (String × List Nat)) (k : String) (buf : List Nat) :
    List (String × List Nat) :=
  (k, buf) :: cache.eraseP (fun e => e.1 == k)

/-- `get_decrypted_content(decryption_id)` (lines 145-151):
`self.decryption_cache.get(str(decryption_id))`. -/
def get_decrypted_content (cache : List (String × List Nat)) (k : String) :
    Option (List Nat) :=
  cache.lookup k

/-- Python truthiness of `decrypted_content`: `None` and `b''` are falsy. -/
def is_truthy : Option (List Nat) → Bool
  | some (_ :: _) => true
  | _ => false

/-- Lines 80-143 of `attempt_decryption` after the strategy dispatch: the
success-level thresholds, the cache insertion keyed by
`"decryption_" + utcnow-timestamp` (parameter `ts`), and the conversion of a
raised exception into a failed outcome. -/
def process_result (cache : List (String × List Nat)) (ts : String)
    (branch : Except String StrategyResult) :
    RecoveryOutcome × List (String × List Nat) :=
  match branch with
  | .error e =>
    (⟨"failed", none, 0, false, "Error during decryption: " ++ e, some e, none⟩, cache)
  | .ok r =>
    let level_msg :=
      if is_truthy r.decrypted ∧ 4/5 < r.confidence then
        ("full", "File successfully decrypted")
      else if is_truthy r.decrypted ∧ 3/10 < r.confidence then
        ("partial", "File partially decrypted")
      else ("failed", "Decryption failed, could not recover file")
    if is_truthy r.decrypted ∧ (level_msg.1 = "full" ∨ level_msg.1 = "partial") then
      match r.decrypted with
      | some buf =>
        (⟨level_msg.1, r.decrypted, r.confidence, r.key_found, level_msg.2, r.details_error,
          some ("decryption_" ++ ts)⟩, cache_put cache ("decryption_" ++ ts) buf)
      | none =>
        (⟨level_msg.1, r.decrypted, r.confidence, r.key_found, level_msg.2, r.details_error,
          none⟩, cache)
    else
      (⟨level_msg.1, r.decrypted, r.confidence, r.key_found, level_msg.2, r.details_error,
        none⟩, cache)

/-- `attempt_decryption(file_content, strategy)` (lines 63-143): dispatch,
then grading and cache insertion. -/
noncomputable def attempt_decryption (o : Oracle) (cache : List (String × List Nat))
    (ts : String) (content : List Nat) (strategy : Strategy) :
    RecoveryOutcome × List (String × List Nat) :=
  process_result cache ts (run_strategy o content strategy)

/-- The dict produced by `_analyze_byte_distribution` for non-empty input. -/
structure DistStats where
  max_frequency : ℚ
  min_frequency : ℚ
  mean_frequency : ℚ
  std_frequency : ℝ
  zero_bytes_ratio : ℚ
  is_uniform : Bool

/-- The non-zero entries of `frequencies = byte_counts / len(data)`
(`frequencies[np.nonzero(frequencies)]`), in byte-value order. -/
def nonzero_freq_list (data : List Nat) : List ℚ :=
  (List.range 256).filterMap (fun v =>
    if 0 < data.count v then some (byte_prob data v) else none)

/-- `_analyze_byte_distribution(data)` (lines 167-195): `{}` (modelled as
`none`) for empty input; for non-empty input `np.min` over the non-zero
frequencies raises if that selection is empty (only possible for non-byte
input), modelled as `Except.error`. `np.std` is the population standard
deviation; `is_uniform` is `std < 0.002`. -/
noncomputable def analyze_byte_distribution (data : List Nat) :
    Except String (Option DistStats) :=
  if data.length = 0 then .ok none
  else
    match nonzero_freq_list data with
    | [] => .error "zero-size array to reduction operation minimum which has no identity"
    | f :: fs =>
      let nz := f :: fs
      let meanF := nz.sum / (nz.length : ℚ)
      let varF : ℚ := (nz.map (fun x => (x - meanF) ^ 2)).sum / (nz.length : ℚ)
      let stdF : ℝ := ((varF : ℚ) : ℝ).sqrt
      .ok (some ⟨((List.range 256).map (byte_prob data)).foldl max 0,
        fs.foldl min f, meanF, stdF,
        (data.count 0 : ℚ) / (data.length : ℚ),
        if stdF < 0.002 then true else false⟩)

/-- The dict produced by `_analyze_file_header`; of its entries the claims
observe `identified`, `file_type` and the `possible_encryption` flag. -/
structure HeaderAnalysis where
  identified : Bool
  file_type : String
  possible_encryption : Bool

/-- `_analyze_file_header(data)` (lines 197-237). -/
noncomputable def analyze_file_header (data : List Nat) : HeaderAnalysis :=
  if data.length < 16 then ⟨false, "unknown", false⟩
  else
    let header := data.take 16
    if zipMagic.isPrefixOf header then ⟨true, "zip", false⟩
    else if pngMagic.isPrefixOf header then ⟨true, "png", false⟩
    else if pdfMagic.isPrefixOf header then ⟨true, "pdf", false⟩
    else if exeMagic.isPrefixOf header then ⟨true, "exe", false⟩
    else if jpegMagic.isPrefixOf header then ⟨true, "jpeg", false⟩
    else if header.all printable_byte then ⟨true, "text", false⟩
    else ⟨false, "unknown", if 7 < calculate_entropy header then true else false⟩

/-- The dict produced by `_detect_encryption_patterns`. -/
structure PatternFlags where
  has_repeating_blocks : Bool
  possible_xor : Bool
  has_ransomware_markers : Bool

/-- `_has_repeating_blocks(data, 16)` (lines 254-272): 16-byte blocks at
offsets `range(0, len(data) - 16, 16)`; flagged when some block value occurs
more than 3 times. -/
def has_repeating_blocks (data : List Nat) : Bool :=
  if data.length < 32 then false
  else
    let blocks := (List.range ((data.length - 16 + 15) / 16)).map
      (fun j => (data.drop (16 * j)).take 16)
    blocks.any (fun b => 3 < blocks.count b)

/-- `_check_xor_pattern(data)` (lines 274-291): sample every 10th byte of the
first `min(1000, len)` bytes, XOR consecutive samples, flag when the ratio of
distinct XOR values is below 0.5. -/
def check_xor_pattern (data : List Nat) : Bool :=
  if data.length < 100 then false
  else
    let samples := (List.range ((min 1000 data.length + 9) / 10)).map
      (fun j => data.getD (10 * j) 0)
    let xor_values := List.zipWith (fun a b => a ^^^ b) samples (samples.drop 1)
    decide (((xor_values.eraseDups.length : ℚ) / (xor_values.length : ℚ)) < 1/2)

/-- The marker list of `_check_ransomware_markers` (lines 295-298). -/
def ransomware_markers : List (List Nat) :=
  [asciiBytes ".encrypted", asciiBytes ".locked", asciiBytes ".crypt", asciiBytes ".crypto",
   asciiBytes ".enc", asciiBytes "DECRYPT_INSTRUCTION", asciiBytes "HOW_TO_DECRYPT",
   asciiBytes "YOUR_FILES_ARE_ENCRYPTED"]

/-- Byte-substring containment. -/
def bytes_contains (pat : List Nat) : List Nat → Bool
  | [] => pat.isEmpty
  | b :: rest => pat.isPrefixOf (b :: rest) || bytes_contains pat rest

/-- `_check_ransomware_markers(data)` (lines 293-307): the source searches
`str(data)` (the bytes repr) for each marker; every marker is a run of
printable ASCII which the repr renders literally and which cannot arise from
the repr's escape sequences, so this coincides with byte-substring
containment. -/
def check_ransomware_markers (data : List Nat) : Bool :=
  ransomware_markers.any (fun m => bytes_contains m data)

/-- `_detect_encryption_patterns(data)` (lines 239-252). -/
def detect_encryption_patterns (data : List Nat) : PatternFlags :=
  ⟨has_repeating_blocks data, check_xor_pattern data, check_ransomware_markers data⟩

/-- `_determine_encryption_type(...)` (lines 309-333): the entropy-banded
classifier. `dist = none` models the `{}` distribution dict of an empty
buffer (`.get('is_uniform', False)` then yields `False`). -/
noncomputable def determine_encryption_type (entropy : ℝ) (dist : Option DistStats)
    (header : HeaderAnalysis) (patterns : PatternFlags) : String :=
  if 7.8 < entropy then
    if patterns.has_repeating_blocks then "AES-ECB"
    else if (dist.map (fun s => s.is_uniform)).getD false then "Strong encryption (AES/RSA)"
    else "Strong encryption (unknown type)"
  else if 7 < entropy then
    if patterns.possible_xor then "XOR encryption"
    else "Medium-strength encryption (possibly RC4, DES)"
  else if 6 < entropy then
    if header.file_type ≠ "unknown" then
      "Weak encryption over " ++ header.file_type ++ " file"
    else "Simple encryption or encoding"
  else
    if patterns.has_ransomware_markers then
      "Possible ransomware marker, no strong encryption"
    else "No encryption detected"

/-- `_develop_decryption_strategy(...)` (lines 335-367): the priority-ordered
strategy selector; `"XOR" in encryption_type` is substring containment and
`startswith("Weak encryption")` a prefix test. -/
noncomputable def develop_decryption_strategy (encryption_type : String) (entropy : ℝ)
    (dist : Option DistStats) (header : HeaderAnalysis) (patterns : PatternFlags) : Strategy :=
  if bytes_contains (asciiBytes "XOR") (asciiBytes encryption_type) then
    ⟨"xor_bruteforce", "Attempt XOR decryption with various keys", 7/10, some (1, 8),
      none, none⟩
  else if "Weak encryption".isPrefixOf encryption_type ∧ header.identified then
    ⟨"known_header_analysis", "Use known file headers to recover encryption key", 3/5, none,
      some header.file_type, none⟩
  else if patterns.has_repeating_blocks then
    ⟨"pattern_based_recovery", "Use repeating patterns to break the encryption", 1/2, none,
      none, some 16⟩
  else if 7 < entropy ∧ ¬ (dist.map (fun s => s.is_uniform)).getD false then
    ⟨"partial_key_recovery", "Attempt to recover partial encryption key", 3/10, none,
      none, none⟩
  else
    ⟨"generic_recovery", "Try multiple common decryption techniques", 1/5, none, none, none⟩

/-- The dict returned by `analyze_encryption` (`analysis_time` omitted). -/
structure AnalysisResult where
  encryption_type : String
  file_size : Nat
  entropy : ℝ
  strategy : Strategy

/-- `analyze_encryption(file_content)` (lines 19-61): the profiling pipeline.
Only the byte-distribution step can raise for a `bytes` input (and in fact
never does — claim C4); its exception propagates (`raise` on line 61). -/
noncomputable def analyze_encryption (content : List Nat) :
    Except String AnalysisResult :=
  (analyze_byte_distribution content).map (fun dist =>
    let entropy := calculate_entropy content
    let header := analyze_file_header content
    let patterns := detect_encryption_patterns content
    let et := determine_encryption_type entropy dist header patterns
    ⟨et, content.length, entropy, develop_decryption_strategy et entropy dist header patterns⟩)

theorem xor_decrypt_go_length (key : List Nat) (i : Nat) (data : List Nat) :
    (xor_decrypt_go key i data).length = data.length := by
  induction data generalizing i with
  | nil => rfl
  | cons b rest ih => simp [xor_decrypt_go, ih]

theorem xor_decrypt_go_involutive (key : List Nat) (i : Nat) (data : List Nat) :
    xor_decrypt_go key i (xor_decrypt_go key i data) = data := by
  induction data generalizing i with
  | nil => rfl
  | cons b rest ih =>
    simp [xor_decrypt_go, ih, Nat.xor_assoc]

/-- C10: the XOR transform used by every recovery strategy is an involution:
applying `_xor_decrypt` twice with the same non-empty key returns the original
buffer, and an empty key returns the buffer unchanged. -/
theorem xor_decrypt_involution (data key : List Nat) :
    (key ≠ [] → xor_decrypt (xor_decrypt data key) key = data) ∧
      xor_decrypt data [] = data := by
  constructor
  · intro hk
    simp only [xor_decrypt, if_neg hk]
    exact xor_decrypt_go_involutive key 0 data
  · rfl

/-- Witness for C10 at buffer `[1, 2, 3]` and key `[5, 9]`. -/
theorem xor_decrypt_involution_witness :
    xor_decrypt (xor_decrypt [1, 2, 3] [5, 9]) [5, 9] = [1, 2, 3] ∧
      xor_decrypt [1, 2, 3] [] = [1, 2, 3] :=
  ⟨(xor_decrypt_involution [1, 2, 3] [5, 9]).1 (by decide),
    (xor_decrypt_involution [1, 2, 3] []).2⟩

theorem xor_decrypt_length (data key : List Nat) :
    (xor_decrypt data key).length = data.length := by
  unfold xor_decrypt
  split
  · rfl
  · exact xor_decrypt_go_length key 0 data

theorem xor_decrypt_go_getElem? (key : List Nat) (i : Nat) (data : List Nat) (j : Nat) :
    (xor_decrypt_go key i data)[j]? =
      data[j]?.map (fun b => b ^^^ key.getD ((i + j) % key.length) 0) := by
  induction data generalizing i j with
  | nil => simp [xor_decrypt_go]
  | cons b rest ih =>
    cases j with
    | zero => simp [xor_decrypt_go]
    | succ j =>
      rw [show xor_decrypt_go key i (b :: rest) =
        (b ^^^ key.getD (i % key.length) 0) :: xor_decrypt_go key (i + 1) rest from rfl]
      rw [List.getElem?_cons_succ, List.getElem?_cons_succ, ih (i + 1) j,
        show i + 1 + j = i + (j + 1) by omega]

theorem lookup_mem {β : Type} (k : String) (v : β) : ∀ (l : List (String × β)),
    l.lookup k = some v → (k, v) ∈ l := by
  intro l
  induction l with
  | nil => intro h; simp [List.lookup] at h
  | cons p rest ih =>
    intro h
    obtain ⟨a, b⟩ := p
    simp only [List.lookup] at h
    split at h
    · next heq =>
      obtain rfl : k = a := by simpa using heq
      obtain rfl : b = v := by simpa using h
      exact List.mem_cons_self _ _
    · exact List.mem_cons_of_mem _ (ih h)

theorem known_headers_vals_ne_nil (ft : String) (e : List Nat)
    (h : known_headers.lookup ft = some e) : e ≠ [] := by
  have hm := lookup_mem ft e known_headers h
  simp only [known_headers, List.mem_cons, List.not_mem_nil, or_false, Prod.mk.injEq] at hm
  rcases hm with ⟨-, rfl⟩ | ⟨-, rfl⟩ | ⟨-, rfl⟩ | ⟨-, rfl⟩ | ⟨-, rfl⟩ | ⟨-, rfl⟩ <;> decide

/-- C9: whenever the strategy's `file_type` is in the known-headers table and
the buffer is at least as long as the expected magic, the derived XOR key
necessarily reproduces the expected magic at the head of the decrypted
buffer, so `_apply_known_header_analysis` returns confidence exactly 0.8 with
`key_found` true; the 0.6 simulated fallback (and the oracle feeding it) is
unreachable. -/
theorem known_header_analysis_always_verifies (oracle : Nat → Bool)
    (content : List Nat) (strategy : Strategy) (expected : List Nat)
    (hlk : known_headers.lookup (strategy.file_type.getD "unknown") = some expected)
    (hlen : expected.length ≤ content.length) :
    apply_known_header_analysis oracle content strategy =
      ⟨some (xor_decrypt content
          (List.zipWith (fun a b => a ^^^ b) (content.take expected.length) expected)),
        4/5, true, none⟩ ∧
      expected.isPrefixOf (xor_decrypt content
          (List.zipWith (fun a b => a ^^^ b) (content.take expected.length) expected)) = true := by
  have hne : expected ≠ [] := known_headers_vals_ne_nil _ _ hlk
  set key := List.zipWith (fun a b => a ^^^ b) (content.take expected.length) expected with hkey
  have hkeylen : key.length = expected.length := by
    rw [hkey, List.length_zipWith, List.length_take]
    have : expected.length ⊓ content.length = expected.length := by omega
    omega
  have hkeyne : key ≠ [] := by
    intro h0
    apply hne
    apply List.length_eq_zero.mp
    rw [← hkeylen, h0]
    rfl
  have htake : (xor_decrypt content key).take expected.length = expected := by
    apply List.ext_getElem?
    intro n
    rw [List.getElem?_take]
    by_cases hn : n < expected.length
    · rw [if_pos hn]
      have hnc : n < content.length := lt_of_lt_of_le hn hlen
      have hnk : n < key.length := by rw [hkeylen]; exact hn
      rw [xor_decrypt, if_neg hkeyne, xor_decrypt_go_getElem? key 0 content n]
      rw [List.getElem?_eq_getElem hnc, List.getElem?_eq_getElem hn, Option.map_some']
      congr 1
      have hmod : (0 + n) % key.length = n := by
        rw [Nat.zero_add, Nat.mod_eq_of_lt hnk]
      rw [hmod, List.getD_eq_getElem key 0 hnk]
      have hz : n < (List.zipWith (fun a b => a ^^^ b)
          (content.take expected.length) expected).length := by
        rw [← hkey]; exact hnk
      have hkn : key[n] = content[n] ^^^ expected[n] := by
        simp only [hkey]
        rw [List.getElem_zipWith]
        congr 1
        exact List.getElem_take content
      rw [hkn, Nat.xor_cancel_left]
    · rw [if_neg hn]
      exact (List.getElem?_eq_none (le_of_not_lt hn)).symm
  have hpre : expected.isPrefixOf (xor_decrypt content key) = true := by
    rw [List.isPrefixOf_iff_prefix, List.prefix_iff_eq_take]
    exact htake.symm
  refine ⟨?_, hpre⟩
  unfold apply_known_header_analysis
  rw [hlk]
  simp only
  rw [if_neg (by omega : ¬ content.length < expected.length)]
  simp only [← hkey, hpre, if_pos]

/-- Witness for C9: a 5-byte buffer already starting with the ZIP magic,
`file_type = zip`. -/
theorem known_header_analysis_always_verifies_witness :
    (apply_known_header_analysis (fun _ => false) [80, 75, 3, 4, 7]
        ⟨"known_header_analysis", "", 3/5, none, some "zip", none⟩).confidence = 4/5 := by
  rw [(known_header_analysis_always_verifies (fun _ => false) [80, 75, 3, 4, 7]
      ⟨"known_header_analysis", "", 3/5, none, some "zip", none⟩ [80, 75, 3, 4]
      (by decide) (by decide)).1]

theorem sum_count_range (data : List Nat) :
    (∑ v ∈ Finset.range 256, data.count v) =
      (data.filter (fun b => decide (b < 256))).length := by
  induction data with
  | nil => simp
  | cons b rest ih =>
    have hc : ∀ v, (b :: rest).count v = rest.count v + if b = v then 1 else 0 := by
      intro v
      rw [List.count_cons]
      by_cases hbv : b = v <;> simp [hbv]
    rw [Finset.sum_congr rfl (fun v _ => hc v), Finset.sum_add_distrib, ih,
      Finset.sum_ite_eq (Finset.range 256) b (fun _ => 1)]
    rw [List.filter_cons]
    by_cases hb : b < 256
    · simp [hb, Finset.mem_range]
    · simp [hb, Finset.mem_range]

theorem sum_count_range_of_valid (data : List Nat) (h : ∀ b ∈ data, b < 256) :
    (∑ v ∈ Finset.range 256, data.count v) = data.length := by
  rw [sum_count_range, List.filter_eq_self.mpr (fun a ha => by simpa using h a ha)]

theorem byte_prob_pos (data : List Nat) (v : Nat) (hc : 0 < data.count v) :
    0 < byte_prob data v := by
  have hlen : 0 < data.length :=
    lt_of_lt_of_le hc (List.count_le_length v data)
  exact div_pos (by exact_mod_cast hc) (by exact_mod_cast hlen)

theorem byte_prob_le_one (data : List Nat) (v : Nat) : byte_prob data v ≤ 1 := by
  unfold byte_prob
  rcases Nat.eq_zero_or_pos data.length with h0 | hpos
  · simp [h0]
  · rw [div_le_one (by exact_mod_cast hpos)]
    exact_mod_cast List.count_le_length v data

theorem calculate_entropy_nonneg (data : List Nat) : 0 ≤ calculate_entropy data := by
  unfold calculate_entropy
  split
  · exact le_rfl
  · apply Finset.sum_nonneg
    intro v _
    split
    · next hc =>
      have hp : 0 < byte_prob data v := byte_prob_pos data v hc
      have hp1 : byte_prob data v ≤ 1 := byte_prob_le_one data v
      have hl : Real.logb 2 ((byte_prob data v : ℚ) : ℝ) ≤ 0 :=
        Real.logb_nonpos one_lt_two (by exact_mod_cast hp.le) (by exact_mod_cast hp1)
      have hpR : (0:ℝ) ≤ ((byte_prob data v : ℚ) : ℝ) := by exact_mod_cast hp.le
      nlinarith
    · exact le_rfl

theorem calculate_entropy_le_eight (data : List Nat) (hvalid : ∀ b ∈ data, b < 256) :
    calculate_entropy data ≤ 8 := by
  unfold calculate_entropy
  split
  · norm_num
  · next hne =>
    have hlen : 0 < data.length := List.length_pos.mpr hne
    have hlenR : (0:ℝ) < (data.length : ℝ) := by exact_mod_cast hlen
    rw [← Finset.sum_filter]
    have hppos : ∀ v ∈ Finset.filter (fun v => 0 < data.count v) (Finset.range 256),
        (0:ℝ) < ((byte_prob data v : ℚ) : ℝ) := by
      intro v hv
      have := byte_prob_pos data v (Finset.mem_filter.mp hv).2
      exact_mod_cast this
    have hsum1 : ∑ v ∈ Finset.filter (fun v => 0 < data.count v) (Finset.range 256),
        ((byte_prob data v : ℚ) : ℝ) = 1 := by
      have h1 : ∑ v ∈ Finset.filter (fun v => 0 < data.count v) (Finset.range 256),
          (data.count v : ℝ) = (data.length : ℝ) := by
        rw [Finset.sum_filter_of_ne (fun v _ hne0 =>
          Nat.pos_of_ne_zero (fun hz => hne0 (by rw [hz]; norm_num)))]
        rw [← sum_count_range_of_valid data hvalid]
        exact (Nat.cast_sum _ _).symm
      calc ∑ v ∈ Finset.filter (fun v => 0 < data.count v) (Finset.range 256),
            ((byte_prob data v : ℚ) : ℝ)
          = ∑ v ∈ Finset.filter (fun v => 0 < data.count v) (Finset.range 256),
            (data.count v : ℝ) / (data.length : ℝ) := by
            refine Finset.sum_congr rfl (fun v _ => ?_)
            unfold byte_prob
            push_cast
            ring
        _ = (∑ v ∈ Finset.filter (fun v => 0 < data.count v) (Finset.range 256),
            (data.count v : ℝ)) / (data.length : ℝ) := (Finset.sum_div _ _ _).symm
        _ = 1 := by rw [h1]; field_simp
    have hmain : ∑ v ∈ Finset.filter (fun v => 0 < data.count v) (Finset.range 256),
        -(((byte_prob data v : ℚ) : ℝ) * Real.log ((byte_prob data v : ℚ) : ℝ)) ≤
          Real.log 256 := by
      have hterm : ∀ v ∈ Finset.filter (fun v => 0 < data.count v) (Finset.range 256),
          -(((byte_prob data v : ℚ) : ℝ) * Real.log ((byte_prob data v : ℚ) : ℝ)) ≤
            (1/256 - ((byte_prob data v : ℚ) : ℝ)) +
              ((byte_prob data v : ℚ) : ℝ) * Real.log 256 := by
        intro v hv
        have hp : (0:ℝ) < ((byte_prob data v : ℚ) : ℝ) := hppos v hv
        have h256p : (0:ℝ) < 1 / (256 * ((byte_prob data v : ℚ) : ℝ)) := by positivity
        have hlog := Real.log_le_sub_one_of_pos h256p
        have hlogsplit : Real.log (1 / (256 * ((byte_prob data v : ℚ) : ℝ))) =
            -Real.log ((byte_prob data v : ℚ) : ℝ) - Real.log 256 := by
          rw [one_div, Real.log_inv,
            Real.log_mul (by norm_num) (ne_of_gt hp)]
          ring
        have hkey : -Real.log ((byte_prob data v : ℚ) : ℝ) - Real.log 256 ≤
            1 / (256 * ((byte_prob data v : ℚ) : ℝ)) - 1 := by
          rw [← hlogsplit]; exact hlog
        have hmul := mul_le_mul_of_nonneg_left hkey hp.le
        have hpinv : ((byte_prob data v : ℚ) : ℝ) *
            (1 / (256 * ((byte_prob data v : ℚ) : ℝ))) = 1/256 := by
          field_simp
          ring
        nlinarith [hmul, hpinv]
      calc ∑ v ∈ Finset.filter (fun v => 0 < data.count v) (Finset.range 256),
            -(((byte_prob data v : ℚ) : ℝ) * Real.log ((byte_prob data v : ℚ) : ℝ))
          ≤ ∑ v ∈ Finset.filter (fun v => 0 < data.count v) (Finset.range 256),
            ((1/256 - ((byte_prob data v : ℚ) : ℝ)) +
              ((byte_prob data v : ℚ) : ℝ) * Real.log 256) := Finset.sum_le_sum hterm
        _ ≤ Real.log 256 := by
            rw [Finset.sum_add_distrib, Finset.sum_sub_distrib, ← Finset.sum_mul, hsum1,
              Finset.sum_const]
            have hcard : ((Finset.filter (fun v => 0 < data.count v)
                (Finset.range 256)).card : ℝ) ≤ 256 := by
              have h1 := Finset.card_filter_le (Finset.range 256) (fun v => 0 < data.count v)
              have h2 : (Finset.range 256).card = 256 := Finset.card_range 256
              exact_mod_cast le_trans h1 (le_of_eq h2)
            simp only [nsmul_eq_mul, one_mul]
            nlinarith [hcard]
    have hlog2 : (0:ℝ) < Real.log 2 := Real.log_pos one_lt_two
    calc ∑ v ∈ Finset.filter (fun v => 0 < data.count v) (Finset.range 256),
          -(((byte_prob data v : ℚ) : ℝ) * Real.logb 2 ((byte_prob data v : ℚ) : ℝ))
        = (∑ v ∈ Finset.filter (fun v => 0 < data.count v) (Finset.range 256),
          -(((byte_prob data v : ℚ) : ℝ) * Real.log ((byte_prob data v : ℚ) : ℝ))) /
            Real.log 2 := by
          rw [Finset.sum_div]
          refine Finset.sum_congr rfl (fun v _ => ?_)
          rw [show Real.logb 2 ((byte_prob data v : ℚ) : ℝ) =
            Real.log ((byte_prob data v : ℚ) : ℝ) / Real.log 2 from rfl]
          ring
      _ ≤ Real.log 256 / Real.log 2 := (div_le_div_right hlog2).mpr hmain
      _ = 8 := by
          rw [show Real.log 256 / Real.log 2 = Real.logb 2 256 from rfl,
            show (256:ℝ) = 2 ^ (8:ℕ) by norm_num, Real.logb_pow,
            Real.logb_self_eq_one one_lt_two]
          norm_num

theorem calculate_entropy_replicate_zero (n : Nat) :
    calculate_entropy (List.replicate n 0) = 0 := by
  cases n with
  | zero => simp [calculate_entropy]
  | succ m =>
    rw [calculate_entropy, if_neg (by simp)]
    apply Finset.sum_eq_zero
    intro v _
    by_cases hv0 : v = 0
    · subst hv0
      rw [if_pos (by simp [List.count_replicate])]
      have hp : byte_prob (List.replicate (m + 1) 0) 0 = 1 := by
        unfold byte_prob
        rw [List.count_replicate]
        rw [if_pos (by simp)]
        rw [List.length_replicate]
        rw [div_self (by exact_mod_cast Nat.succ_ne_zero m)]
      rw [hp]
      simp
    · have hc : (List.replicate (m + 1) 0).count v = 0 := by
        rw [List.count_replicate, if_neg]
        simp only [beq_iff_eq]
        exact fun h => hv0 h.symm
      rw [if_neg (by rw [hc]; omega)]

theorem calculate_entropy_le_of_min_prob (data : List Nat) (k : Nat)
    (h : ∀ v, v < 256 → 0 < data.count v → (1:ℚ)/2^k ≤ byte_prob data v) :
    calculate_entropy data ≤ (k : ℝ) := by
  unfold calculate_entropy
  split
  · positivity
  · rw [← Finset.sum_filter]
    have hsum_le : ∑ v ∈ Finset.filter (fun v => 0 < data.count v) (Finset.range 256),
        ((byte_prob data v : ℚ) : ℝ) ≤ 1 := by
      rcases Nat.eq_zero_or_pos data.length with h0 | hlen
      · have : ∀ v ∈ Finset.filter (fun v => 0 < data.count v) (Finset.range 256),
            ((byte_prob data v : ℚ) : ℝ) = 0 := by
          intro v hv
          have := (Finset.mem_filter.mp hv).2
          have hle := List.count_le_length v data
          omega
        rw [Finset.sum_congr rfl this]
        simp
      · have h4 : (∑ v ∈ Finset.filter (fun v => 0 < data.count v) (Finset.range 256),
            data.count v) ≤ data.length := by
          have h1 : (∑ v ∈ Finset.filter (fun v => 0 < data.count v) (Finset.range 256),
              data.count v) ≤ ∑ v ∈ Finset.range 256, data.count v :=
            Finset.sum_le_sum_of_subset (Finset.filter_subset _ _)
          have h2 := sum_count_range data
          have h3 := List.length_filter_le (fun b => decide (b < 256)) data
          omega
        have hlenR : (0:ℝ) < (data.length : ℝ) := by exact_mod_cast hlen
        calc ∑ v ∈ Finset.filter (fun v => 0 < data.count v) (Finset.range 256),
              ((byte_prob data v : ℚ) : ℝ)
            = (∑ v ∈ Finset.filter (fun v => 0 < data.count v) (Finset.range 256),
              (data.count v : ℝ)) / (data.length : ℝ) := by
              rw [Finset.sum_div]
              refine Finset.sum_congr rfl (fun v _ => ?_)
              unfold byte_prob
              push_cast
              ring
          _ ≤ 1 := by
              rw [div_le_one hlenR, ← Nat.cast_sum]
              exact_mod_cast h4
    have hterm : ∀ v ∈ Finset.filter (fun v => 0 < data.count v) (Finset.range 256),
        -(((byte_prob data v : ℚ) : ℝ) * Real.logb 2 ((byte_prob data v : ℚ) : ℝ)) ≤
          ((byte_prob data v : ℚ) : ℝ) * (k : ℝ) := by
      intro v hv
      obtain ⟨hvr, hvc⟩ := Finset.mem_filter.mp hv
      have hvlt : v < 256 := Finset.mem_range.mp hvr
      have hq := h v hvlt hvc
      have hp : 0 < byte_prob data v := byte_prob_pos data v hvc
      have hpR : (0:ℝ) < ((byte_prob data v : ℚ) : ℝ) := by exact_mod_cast hp
      have h2k : (0:ℝ) < 2 ^ k := by positivity
      have hinv : (((byte_prob data v : ℚ) : ℝ))⁻¹ ≤ 2 ^ k := by
        have hqR : (1:ℝ)/2^k ≤ ((byte_prob data v : ℚ) : ℝ) := by
          have h0 : ((1/2^k : ℚ) : ℝ) ≤ ((byte_prob data v : ℚ) : ℝ) := Rat.cast_le.mpr hq
          push_cast at h0
          exact h0
        rw [div_le_iff h2k] at hqR
        rw [show (((byte_prob data v : ℚ) : ℝ))⁻¹ =
          1 / ((byte_prob data v : ℚ) : ℝ) from (one_div _).symm, div_le_iff hpR]
        nlinarith [hqR]
      have hlogle : Real.logb 2 ((((byte_prob data v : ℚ) : ℝ))⁻¹) ≤ (k : ℝ) := by
        rw [Real.logb_le_iff_le_rpow one_lt_two (inv_pos.mpr hpR), Real.rpow_natCast]
        exact hinv
      have hrw : -(((byte_prob data v : ℚ) : ℝ) * Real.logb 2 ((byte_prob data v : ℚ) : ℝ)) =
          ((byte_prob data v : ℚ) : ℝ) * Real.logb 2 ((((byte_prob data v : ℚ) : ℝ))⁻¹) := by
        rw [Real.logb_inv]
        ring
      rw [hrw]
      exact mul_le_mul_of_nonneg_left hlogle hpR.le
    calc ∑ v ∈ Finset.filter (fun v => 0 < data.count v) (Finset.range 256),
          -(((byte_prob data v : ℚ) : ℝ) * Real.logb 2 ((byte_prob data v : ℚ) : ℝ))
        ≤ ∑ v ∈ Finset.filter (fun v => 0 < data.count v) (Finset.range 256),
          ((byte_prob data v : ℚ) : ℝ) * (k : ℝ) := Finset.sum_le_sum hterm
      _ = (∑ v ∈ Finset.filter (fun v => 0 < data.count v) (Finset.range 256),
          ((byte_prob data v : ℚ) : ℝ)) * (k : ℝ) := (Finset.sum_mul _ _ _).symm
      _ ≤ 1 * (k : ℝ) := mul_le_mul_of_nonneg_right hsum_le (by positivity)
      _ = (k : ℝ) := one_mul _

/-- C8: the Shannon entropy computed by the profiler lies in `[0, 8]` for
every byte buffer, and an all-zero buffer of any length (including the empty
buffer, `n = 0`) has entropy exactly 0. -/
theorem entropy_bounds (data : List Nat) (hvalid : ∀ b ∈ data, b < 256) :
    0 ≤ calculate_entropy data ∧ calculate_entropy data ≤ 8 ∧
      ∀ n : Nat, calculate_entropy (List.replicate n 0) = 0 :=
  ⟨calculate_entropy_nonneg data, calculate_entropy_le_eight data hvalid,
    calculate_entropy_replicate_zero⟩

/-- Witness for C8 at the two-byte buffer `[0, 65]`. -/
theorem entropy_bounds_witness :
    0 ≤ calculate_entropy [0, 65] ∧ calculate_entropy [0, 65] ≤ 8 ∧
      ∀ n : Nat, calculate_entropy (List.replicate n 0) = 0 :=
  entropy_bounds [0, 65] (by decide)

theorem isPrefixOf_head {x : Nat} {p data : List Nat}
    (hp : (x :: p).isPrefixOf data = true) : data.head? = some x := by
  obtain ⟨t, rfl⟩ := List.isPrefixOf_iff_prefix.mp hp
  rfl

theorem magic_bonus_eq (data : List Nat) :
    (if zipMagic.isPrefixOf data then 50
     else if pngMagic.isPrefixOf data then 50
     else if pdfMagic.isPrefixOf data then 50
     else if exeMagic.isPrefixOf data then 40
     else if jpegMagic.isPrefixOf data then (50:Nat)
     else 0) = spec_magic_bonus data := by
  unfold spec_magic_bonus
  by_cases h4 : exeMagic.isPrefixOf data
  · by_cases h5 : jpegMagic.isPrefixOf data
    · exfalso
      have hx : data.head? = some 77 :=
        isPrefixOf_head (show ((77:Nat) :: [90]).isPrefixOf data = true from h4)
      have hy : data.head? = some 255 :=
        isPrefixOf_head (show ((255:Nat) :: [216, 255]).isPrefixOf data = true from h5)
      rw [hx] at hy
      exact absurd hy (by decide)
    · by_cases h1 : zipMagic.isPrefixOf data <;>
      by_cases h2 : pngMagic.isPrefixOf data <;>
      by_cases h3 : pdfMagic.isPrefixOf data <;>
      simp [h1, h2, h3, h4, h5]
  · by_cases h1 : zipMagic.isPrefixOf data <;>
    by_cases h2 : pngMagic.isPrefixOf data <;>
    by_cases h3 : pdfMagic.isPrefixOf data <;>
    by_cases h5 : jpegMagic.isPrefixOf data <;>
    simp [h1, h2, h3, h4, h5]

theorem structure_bonus_eq (decoded : List Nat) :
    (if (asciiBytes "<!DOCTYPE").isPrefixOf decoded ∨
        (asciiBytes "<html").isPrefixOf decoded then (20:Nat)
     else if (asciiBytes "<?xml").isPrefixOf decoded then 20
     else if decoded.head? = some 123 ∧
        (decoded.reverse.dropWhile py_space).head? = some 125 then 15
     else 0) = spec_structure_bonus decoded := by
  unfold spec_structure_bonus
  by_cases hx : (asciiBytes "<?xml").isPrefixOf decoded <;>
  by_cases hd : (asciiBytes "<!DOCTYPE").isPrefixOf decoded ∨
      (asciiBytes "<html").isPrefixOf decoded <;>
  simp [hx, hd, or_assoc]

/-- C7 amended: for every buffer the scorer returns exactly
`min(magic + printable + entropy, 100)` with the additive bonuses as the
claim describes them, except that the printable/whitespace bonus requires
STRICTLY MORE than 90% printable bytes (not "at least 90%"); the score is
always in `[0, 100]` and a zero-length buffer scores exactly 0. -/
theorem score_decryption_result_characterization (data : List Nat) :
    score_decryption_result data =
      (if data = [] then 0
       else min (spec_magic_bonus data +
         (if 9/10 < (((data.take 1000).filter printable_byte).length : ℚ) /
             ((data.take 1000).length : ℚ) then
           40 + spec_structure_bonus (utf8_decode_ignore (data.take 1000)) else 0) +
         spec_entropy_bonus data) 100) ∧
      score_decryption_result data ≤ 100 ∧ score_decryption_result [] = 0 := by
  refine ⟨?_, ?_, rfl⟩
  · by_cases hd : data = []
    · simp [hd, score_decryption_result]
    · simp only [score_decryption_result, if_neg hd, magic_bonus_eq, structure_bonus_eq,
        spec_entropy_bonus, gt_iff_lt]
  · by_cases hd : data = []
    · simp [hd, score_decryption_result]
    · simp only [score_decryption_result, if_neg hd]
      exact min_le_right _ _

theorem entropy_nine_printable_lt_six :
    calculate_entropy ([65, 65, 65, 65, 65, 65, 65, 65, 65, 0] : List Nat) < 6 := by
  refine lt_of_le_of_lt (calculate_entropy_le_of_min_prob _ 4 ?_) (by norm_num)
  intro v hv hc
  have hmem : v ∈ ([65, 65, 65, 65, 65, 65, 65, 65, 65, 0] : List Nat) :=
    List.count_pos_iff.mp hc
  have hv2 : v = 65 ∨ v = 0 := by
    simp only [List.mem_cons, List.not_mem_nil, or_false] at hmem
    tauto
  rcases hv2 with rfl | rfl
  · unfold byte_prob
    rw [show (([65, 65, 65, 65, 65, 65, 65, 65, 65, 0] : List Nat).count 65) = 9 from by decide,
      show (([65, 65, 65, 65, 65, 65, 65, 65, 65, 0] : List Nat).length) = 10 from by decide]
    norm_num
  · unfold byte_prob
    rw [show (([65, 65, 65, 65, 65, 65, 65, 65, 65, 0] : List Nat).count 0) = 1 from by decide,
      show (([65, 65, 65, 65, 65, 65, 65, 65, 65, 0] : List Nat).length) = 10 from by decide]
    norm_num

theorem score_nine_printable :
    score_decryption_result [65, 65, 65, 65, 65, 65, 65, 65, 65, 0] = 20 := by
  have he : calculate_entropy (([65, 65, 65, 65, 65, 65, 65, 65, 65, 0] : List Nat).take 1000)
      < 6 := by
    rw [show (([65, 65, 65, 65, 65, 65, 65, 65, 65, 0] : List Nat).take 1000) =
      [65, 65, 65, 65, 65, 65, 65, 65, 65, 0] from rfl]
    exact entropy_nine_printable_lt_six
  have hl1 : (List.filter printable_byte
      (List.take 1000 [65, 65, 65, 65, 65, 65, 65, 65, 65, 0])).length = 9 := by decide
  have hl2 : (List.take 1000 ([65, 65, 65, 65, 65, 65, 65, 65, 65, 0] : List Nat)).length = 10 :=
    by decide
  have hm1 : zipMagic.isPrefixOf [65, 65, 65, 65, 65, 65, 65, 65, 65, 0] = false := by decide
  have hm2 : pngMagic.isPrefixOf [65, 65, 65, 65, 65, 65, 65, 65, 65, 0] = false := by decide
  have hm3 : pdfMagic.isPrefixOf [65, 65, 65, 65, 65, 65, 65, 65, 65, 0] = false := by decide
  have hm4 : exeMagic.isPrefixOf [65, 65, 65, 65, 65, 65, 65, 65, 65, 0] = false := by decide
  have hm5 : jpegMagic.isPrefixOf [65, 65, 65, 65, 65, 65, 65, 65, 65, 0] = false := by decide
  simp only [score_decryption_result]
  rw [if_neg (show ¬([65, 65, 65, 65, 65, 65, 65, 65, 65, 0] : List Nat) = [] by decide),
    if_pos he, hl1, hl2, hm1, hm2, hm3, hm4, hm5]
  norm_num

theorem claimed_score_nine_printable :
    claimed_score [65, 65, 65, 65, 65, 65, 65, 65, 65, 0] = 60 := by
  have he : calculate_entropy (([65, 65, 65, 65, 65, 65, 65, 65, 65, 0] : List Nat).take 1000)
      < 6 := by
    rw [show (([65, 65, 65, 65, 65, 65, 65, 65, 65, 0] : List Nat).take 1000) =
      [65, 65, 65, 65, 65, 65, 65, 65, 65, 0] from rfl]
    exact entropy_nine_printable_lt_six
  have hl1 : (List.filter printable_byte
      (List.take 1000 [65, 65, 65, 65, 65, 65, 65, 65, 65, 0])).length = 9 := by decide
  have hl2 : (List.take 1000 ([65, 65, 65, 65, 65, 65, 65, 65, 65, 0] : List Nat)).length = 10 :=
    by decide
  have hmg : spec_magic_bonus [65, 65, 65, 65, 65, 65, 65, 65, 65, 0] = 0 := by decide
  have hsb : spec_structure_bonus
      (utf8_decode_ignore (List.take 1000 ([65, 65, 65, 65, 65, 65, 65, 65, 65, 0] : List Nat)))
      = 0 := by decide
  simp only [claimed_score, spec_entropy_bonus]
  rw [if_neg (show ¬([65, 65, 65, 65, 65, 65, 65, 65, 65, 0] : List Nat) = [] by decide),
    if_pos he, hl1, hl2, hmg, hsb]
  norm_num

/-- C7 counterexample: nine printable bytes followed by one NUL byte — the
printable ratio is exactly 90%. The code's strictly-greater-than-0.9 test
grants no +40 bonus and the score is 20, while the claim's "at least 90%"
wording predicts 60. -/
theorem score_ratio_boundary_counterexample :
    score_decryption_result [65, 65, 65, 65, 65, 65, 65, 65, 65, 0] = 20 ∧
    claimed_score [65, 65, 65, 65, 65, 65, 65, 65, 65, 0] = 60 ∧
    score_decryption_result [65, 65, 65, 65, 65, 65, 65, 65, 65, 0] ≠
      claimed_score [65, 65, 65, 65, 65, 65, 65, 65, 65, 0] :=
  ⟨score_nine_printable, claimed_score_nine_printable, by
    rw [score_nine_printable, claimed_score_nine_printable]
    decide⟩

/-- C5 amended: the confidence returned by the xor_bruteforce branch equals
`min(best_score/100, 1)` (0 when `best_score <= 0`) only when that value is at
least 0.4; below 0.4 the demonstration fallback replaces it with a simulated
buffer at confidence exactly 0.75 and `key_found = True`. In all cases the
returned `key_found` is true iff the returned confidence exceeds 0.5. -/
theorem xor_bruteforce_confidence_amended (rkey : Nat → Nat → List Nat)
    (content : List Nat) (strategy : Strategy) :
    (xor_raw_confidence rkey content strategy < 2/5 →
      (apply_xor_bruteforce rkey content strategy).confidence = 3/4 ∧
      (apply_xor_bruteforce rkey content strategy).key_found = true) ∧
    (2/5 ≤ xor_raw_confidence rkey content strategy →
      (apply_xor_bruteforce rkey content strategy).confidence =
        xor_raw_confidence rkey content strategy) ∧
    ((apply_xor_bruteforce rkey content strategy).key_found = true ↔
      1/2 < (apply_xor_bruteforce rkey content strategy).confidence) := by
  unfold apply_xor_bruteforce
  by_cases h : xor_raw_confidence rkey content strategy < 2/5
  · rw [if_pos h]
    refine ⟨fun _ => ⟨rfl, rfl⟩, fun h2 => absurd h (not_lt.mpr h2), ?_⟩
    norm_num
  · rw [if_neg h]
    refine ⟨fun h2 => absurd h2 h, fun _ => rfl, ?_⟩
    simp [decide_eq_true_eq]

theorem score_singleton_zero : score_decryption_result [0] = 20 := by
  have he : calculate_entropy (([0] : List Nat).take 1000) < 6 := by
    rw [show (([0] : List Nat).take 1000) = [0] from rfl]
    have h0 := calculate_entropy_replicate_zero 1
    rw [show (List.replicate 1 0 : List Nat) = [0] from rfl] at h0
    rw [h0]
    norm_num
  have hl1 : (List.filter printable_byte (List.take 1000 [0])).length = 0 := by decide
  have hl2 : (List.take 1000 ([0] : List Nat)).length = 1 := by decide
  have hm1 : zipMagic.isPrefixOf [0] = false := by decide
  have hm2 : pngMagic.isPrefixOf [0] = false := by decide
  have hm3 : pdfMagic.isPrefixOf [0] = false := by decide
  have hm4 : exeMagic.isPrefixOf [0] = false := by decide
  have hm5 : jpegMagic.isPrefixOf [0] = false := by decide
  simp only [score_decryption_result]
  rw [if_neg (show ¬([0] : List Nat) = [] by decide),
    if_pos he, hl1, hl2, hm1, hm2, hm3, hm4, hm5]
  norm_num

theorem keys_const_zero :
    xor_candidate_keys (fun _ _ => [0]) 1 1 =
      [[0], [0], [0], [0], [0], [0], [0], [0], [0], [0]] := by decide

theorem xor_best_const_zero :
    xor_best [0] (xor_candidate_keys (fun _ _ => [0]) 1 1) = (20, some [0], some [0]) := by
  rw [keys_const_zero]
  have hd : xor_decrypt [0] [0] = [0] := by decide
  simp only [xor_best, List.foldl_cons, List.foldl_nil, hd, score_singleton_zero]
  norm_num

theorem xor_raw_const_zero :
    xor_raw_confidence (fun _ _ => [0]) [0]
      ⟨"xor_bruteforce", "", 7/10, some (1, 1), none, none⟩ = 1/5 := by
  have hrfl : xor_raw_confidence (fun _ _ => [0]) [0]
      ⟨"xor_bruteforce", "", 7/10, some (1, 1), none, none⟩ =
      (if 0 < (xor_best [0] (xor_candidate_keys (fun _ _ => [0]) 1 1)).1 then
        min (((xor_best [0] (xor_candidate_keys (fun _ _ => [0]) 1 1)).1 : ℚ) / 100) 1
      else 0) := rfl
  rw [hrfl, xor_best_const_zero]
  norm_num [min_def]

/-- C5 counterexample: buffer `[0]`, key-size range `[1, 1]`, every sampled
key `[0]`. The best candidate score observed is 20, so the claim's formula
gives `min(20/100, 1) = 1/5`, but the branch returns the demonstration
fallback's confidence 0.75. -/
theorem xor_bruteforce_confidence_counterexample :
    (xor_best [0] (xor_candidate_keys (fun _ _ => [0]) 1 1)).1 = 20 ∧
    (apply_xor_bruteforce (fun _ _ => [0]) [0]
      ⟨"xor_bruteforce", "", 7/10, some (1, 1), none, none⟩).confidence = 3/4 ∧
    ((3:ℚ)/4 ≠ min (((20:ℤ) : ℚ) / 100) 1) := by
  refine ⟨by rw [xor_best_const_zero], ?_, by norm_num [min_def]⟩
  unfold apply_xor_bruteforce
  rw [xor_raw_const_zero]
  rw [if_pos (show (1:ℚ)/5 < 2/5 by norm_num)]

/-- Witness for the amended C5 theorem: the fallback case fires at the
counterexample input. -/
theorem xor_bruteforce_confidence_amended_witness :
    (apply_xor_bruteforce (fun _ _ => [0]) [0]
      ⟨"xor_bruteforce", "", 7/10, some (1, 1), none, none⟩).confidence = 3/4 ∧
    (apply_xor_bruteforce (fun _ _ => [0]) [0]
      ⟨"xor_bruteforce", "", 7/10, some (1, 1), none, none⟩).key_found = true :=
  (xor_bruteforce_confidence_amended (fun _ _ => [0]) [0]
      ⟨"xor_bruteforce", "", 7/10, some (1, 1), none, none⟩).1
    (by rw [xor_raw_const_zero]; norm_num)

theorem is_truthy_iff (d : Option (List Nat)) :
    is_truthy d = true ↔ ∃ buf, d = some buf ∧ buf ≠ [] := by
  match d with
  | none => simp [is_truthy]
  | some [] => simp [is_truthy]
  | some (b :: rest) => simp [is_truthy]

theorem process_result_levels (cache : List (String × List Nat)) (ts : String)
    (branch : Except String StrategyResult) :
    (((process_result cache ts branch).1.success_level = "full") ↔
      (4/5 < (process_result cache ts branch).1.confidence ∧
       ∃ buf, (process_result cache ts branch).1.decrypted_content = some buf ∧ buf ≠ [])) ∧
    (((process_result cache ts branch).1.success_level = "partial") ↔
      (3/10 < (process_result cache ts branch).1.confidence ∧
       (process_result cache ts branch).1.confidence ≤ 4/5 ∧
       ∃ buf, (process_result cache ts branch).1.decrypted_content = some buf ∧ buf ≠ [])) ∧
    (((process_result cache ts branch).1.success_level = "failed") ↔
      (¬(4/5 < (process_result cache ts branch).1.confidence ∧
         ∃ buf, (process_result cache ts branch).1.decrypted_content = some buf ∧ buf ≠ []) ∧
       ¬(3/10 < (process_result cache ts branch).1.confidence ∧
         (process_result cache ts branch).1.confidence ≤ 4/5 ∧
         ∃ buf, (process_result cache ts branch).1.decrypted_content = some buf ∧ buf ≠ []))) := by
  match branch with
  | .error e => simp [process_result]
  | .ok r =>
    obtain ⟨d, conf, kf, de⟩ := r
    rcases d with _ | buf
    · simp [process_result, is_truthy]
    · rcases buf with _ | ⟨b, rest⟩
      · simp [process_result, is_truthy]
      · by_cases hc1 : (4:ℚ)/5 < conf
        · have hc2 : (3:ℚ)/10 < conf := lt_trans (by norm_num) hc1
          simp [process_result, is_truthy, hc1, hc2, hc1.not_le]
        · by_cases hc2 : (3:ℚ)/10 < conf
          · simp [process_result, is_truthy, hc1, hc2, not_lt.mp hc1]
          · simp [process_result, is_truthy, hc1, hc2]

/-- C1: for every oracle, prior cache, timestamp, buffer and strategy, the
outcome of `attempt_decryption` has `success_level = "full"` iff
`confidence > 0.8` with a present non-empty recovered buffer,
`"partial"` iff `0.3 < confidence ≤ 0.8` with a present non-empty buffer,
and `"failed"` in every other case — in particular at the boundary values
`confidence = 0.3` (not partial) and `confidence = 0.8` (not full). -/
theorem success_level_thresholds (o : Oracle) (cache : List (String × List Nat))
    (ts : String) (content : List Nat) (strategy : Strategy) :
    (((attempt_decryption o cache ts content strategy).1.success_level = "full") ↔
      (4/5 < (attempt_decryption o cache ts content strategy).1.confidence ∧
       ∃ buf, (attempt_decryption o cache ts content strategy).1.decrypted_content = some buf ∧
         buf ≠ [])) ∧
    (((attempt_decryption o cache ts content strategy).1.success_level = "partial") ↔
      (3/10 < (attempt_decryption o cache ts content strategy).1.confidence ∧
       (attempt_decryption o cache ts content strategy).1.confidence ≤ 4/5 ∧
       ∃ buf, (attempt_decryption o cache ts content strategy).1.decrypted_content = some buf ∧
         buf ≠ [])) ∧
    (((attempt_decryption o cache ts content strategy).1.success_level = "failed") ↔
      (¬(4/5 < (attempt_decryption o cache ts content strategy).1.confidence ∧
         ∃ buf, (attempt_decryption o cache ts content strategy).1.decrypted_content = some buf ∧
           buf ≠ []) ∧
       ¬(3/10 < (attempt_decryption o cache ts content strategy).1.confidence ∧
         (attempt_decryption o cache ts content strategy).1.confidence ≤ 4/5 ∧
         ∃ buf, (attempt_decryption o cache ts content strategy).1.decrypted_content = some buf ∧
           buf ≠ []))) :=
  process_result_levels cache ts (run_strategy o content strategy)

theorem lookup_cache_put_self (cache : List (String × List Nat)) (k : String) (buf : List Nat) :
    (cache_put cache k buf).lookup k = some buf := by
  simp [cache_put, List.lookup]

theorem lookup_eraseP_ne (k aid : String) (h : aid ≠ k) (cache : List (String × List Nat)) :
    (cache.eraseP (fun e => e.1 == k)).lookup aid = cache.lookup aid := by
  induction cache with
  | nil => rfl
  | cons p rest ih =>
    obtain ⟨a, b⟩ := p
    by_cases hak : a = k
    · subst hak
      simp only [List.eraseP_cons]
      rw [show (((a, b).1 == a) : Bool) = true from by simp]
      simp only [cond_true, List.lookup]
      rw [show ((aid == a) : Bool) = false from beq_eq_false_iff_ne.mpr h]
    · simp only [List.eraseP_cons]
      rw [show (((a, b).1 == k) : Bool) = false from by simp [hak]]
      simp only [cond_false, List.lookup]
      cases hid : ((aid == a) : Bool)
      · simpa [hid] using ih
      · simp [hid]

theorem lookup_cache_put_ne (cache : List (String × List Nat)) (k aid : String)
    (buf : List Nat) (h : aid ≠ k) :
    (cache_put cache k buf).lookup aid = cache.lookup aid := by
  unfold cache_put
  simp only [List.lookup]
  rw [show ((aid == k) : Bool) = false from beq_eq_false_iff_ne.mpr h]
  exact lookup_eraseP_ne k aid h cache

theorem process_result_ok_full (cache : List (String × List Nat)) (ts : String)
    (b : Nat) (rest : List Nat) (conf : ℚ) (kf : Bool) (de : Option String)
    (hc1 : (4:ℚ)/5 < conf) :
    process_result cache ts (.ok ⟨some (b :: rest), conf, kf, de⟩) =
      (⟨"full", some (b :: rest), conf, kf, "File successfully decrypted", de,
        some ("decryption_" ++ ts)⟩,
       cache_put cache ("decryption_" ++ ts) (b :: rest)) := by
  have htr : is_truthy (some (b :: rest)) = true := rfl
  simp only [process_result]
  have hlm : (if is_truthy (some (b :: rest)) = true ∧ (4:ℚ)/5 < conf then
      (("full" : String), ("File successfully decrypted" : String))
    else if is_truthy (some (b :: rest)) = true ∧ (3:ℚ)/10 < conf then
      ("partial", "File partially decrypted")
    else ("failed", "Decryption failed, could not recover file")) =
      ("full", "File successfully decrypted") := if_pos ⟨htr, hc1⟩
  rw [hlm, if_pos ⟨htr, Or.inl rfl⟩]

theorem process_result_ok_mid (cache : List (String × List Nat)) (ts : String)
    (b : Nat) (rest : List Nat) (conf : ℚ) (kf : Bool) (de : Option String)
    (hc1 : ¬ (4:ℚ)/5 < conf) (hc2 : (3:ℚ)/10 < conf) :
    process_result cache ts (.ok ⟨some (b :: rest), conf, kf, de⟩) =
      (⟨"partial", some (b :: rest), conf, kf, "File partially decrypted", de,
        some ("decryption_" ++ ts)⟩,
       cache_put cache ("decryption_" ++ ts) (b :: rest)) := by
  have htr : is_truthy (some (b :: rest)) = true := rfl
  simp only [process_result]
  have hlm : (if is_truthy (some (b :: rest)) = true ∧ (4:ℚ)/5 < conf then
      (("full" : String), ("File successfully decrypted" : String))
    else if is_truthy (some (b :: rest)) = true ∧ (3:ℚ)/10 < conf then
      ("partial", "File partially decrypted")
    else ("failed", "Decryption failed, could not recover file")) =
      ("partial", "File partially decrypted") := by
    rw [if_neg (fun hx => hc1 hx.2), if_pos ⟨htr, hc2⟩]
  rw [hlm, if_pos ⟨htr, Or.inr rfl⟩]

theorem process_result_ok_low (cache : List (String × List Nat)) (ts : String)
    (b : Nat) (rest : List Nat) (conf : ℚ) (kf : Bool) (de : Option String)
    (hc1 : ¬ (4:ℚ)/5 < conf) (hc2 : ¬ (3:ℚ)/10 < conf) :
    process_result cache ts (.ok ⟨some (b :: rest), conf, kf, de⟩) =
      (⟨"failed", some (b :: rest), conf, kf, "Decryption failed, could not recover file", de,
        none⟩, cache) := by
  simp only [process_result]
  have hlm : (if is_truthy (some (b :: rest)) = true ∧ (4:ℚ)/5 < conf then
      (("full" : String), ("File successfully decrypted" : String))
    else if is_truthy (some (b :: rest)) = true ∧ (3:ℚ)/10 < conf then
      ("partial", "File partially decrypted")
    else ("failed", "Decryption failed, could not recover file")) =
      ("failed", "Decryption failed, could not recover file") := by
    rw [if_neg (fun hx => hc1 hx.2), if_neg (fun hx => hc2 hx.2)]
  rw [hlm, if_neg (fun hx => by rcases hx.2 with h | h <;> simp at h)]

theorem process_result_ok_not_truthy (cache : List (String × List Nat)) (ts : String)
    (d : Option (List Nat)) (conf : ℚ) (kf : Bool) (de : Option String)
    (hd : is_truthy d = false) :
    process_result cache ts (.ok ⟨d, conf, kf, de⟩) =
      (⟨"failed", d, conf, kf, "Decryption failed, could not recover file", de, none⟩,
        cache) := by
  have hnt : ¬ is_truthy d = true := by rw [hd]; exact Bool.false_ne_true
  simp only [process_result]
  have hlm : (if is_truthy d = true ∧ (4:ℚ)/5 < conf then
      (("full" : String), ("File successfully decrypted" : String))
    else if is_truthy d = true ∧ (3:ℚ)/10 < conf then
      ("partial", "File partially decrypted")
    else ("failed", "Decryption failed, could not recover file")) =
      ("failed", "Decryption failed, could not recover file") := by
    rw [if_neg (fun hx => hnt hx.1), if_neg (fun hx => hnt hx.1)]
  rw [hlm, if_neg (fun hx => hnt hx.1)]

theorem process_result_cache (cache : List (String × List Nat)) (ts : String)
    (branch : Except String StrategyResult) :
    ((∃ k, (process_result cache ts branch).1.details_decryption_id = some k ∧
        (((process_result cache ts branch).2).lookup k).isSome = true) ↔
      ((process_result cache ts branch).1.success_level = "full" ∨
       (process_result cache ts branch).1.success_level = "partial")) ∧
    (∀ k, cache.lookup k = none → k ≠ "decryption_" ++ ts →
      ((process_result cache ts branch).2).lookup k = none) := by
  match branch with
  | .error e =>
    refine ⟨?_, fun k hk _ => hk⟩
    simp [process_result]
  | .ok r =>
    obtain ⟨d, conf, kf, de⟩ := r
    rcases d with _ | buf
    · rw [process_result_ok_not_truthy cache ts none conf kf de rfl]
      refine ⟨?_, fun k hk _ => hk⟩
      simp
    · rcases buf with _ | ⟨b, rest⟩
      · rw [process_result_ok_not_truthy cache ts (some []) conf kf de rfl]
        refine ⟨?_, fun k hk _ => hk⟩
        simp
      · by_cases hc1 : (4:ℚ)/5 < conf
        · rw [process_result_ok_full cache ts b rest conf kf de hc1]
          constructor
          · constructor
            · intro _
              exact Or.inl rfl
            · intro _
              exact ⟨"decryption_" ++ ts, rfl, by rw [lookup_cache_put_self]; rfl⟩
          · intro k hk hne
            rw [lookup_cache_put_ne cache _ k _ hne]
            exact hk
        · by_cases hc2 : (3:ℚ)/10 < conf
          · rw [process_result_ok_mid cache ts b rest conf kf de hc1 hc2]
            constructor
            · constructor
              · intro _
                exact Or.inr rfl
              · intro _
                exact ⟨"decryption_" ++ ts, rfl, by rw [lookup_cache_put_self]; rfl⟩
            · intro k hk hne
              rw [lookup_cache_put_ne cache _ k _ hne]
              exact hk
          · rw [process_result_ok_low cache ts b rest conf kf de hc1 hc2]
            refine ⟨?_, fun k hk _ => hk⟩
            simp

/-- C2: after any `attempt_decryption` call (including the exception path) a
result-cache entry keyed by the attempt identifier placed in `details` exists
iff the returned `success_level` is full or partial; an identifier that was
absent before the call and is not the one minted by it is still absent, and
`get_decrypted_content` on any identifier against the empty cache returns
`none`. -/
theorem cache_entry_iff_success (o : Oracle) (cache : List (String × List Nat))
    (ts : String) (content : List Nat) (strategy : Strategy) :
    ((∃ k, (attempt_decryption o cache ts content strategy).1.details_decryption_id = some k ∧
        (get_decrypted_content ((attempt_decryption o cache ts content strategy).2) k).isSome
          = true) ↔
      ((attempt_decryption o cache ts content strategy).1.success_level = "full" ∨
       (attempt_decryption o cache ts content strategy).1.success_level = "partial")) ∧
    (∀ k, get_decrypted_content cache k = none → k ≠ "decryption_" ++ ts →
      get_decrypted_content ((attempt_decryption o cache ts content strategy).2) k = none) ∧
    (∀ k, get_decrypted_content [] k = none) :=
  ⟨(process_result_cache cache ts (run_strategy o content strategy)).1,
   (process_result_cache cache ts (run_strategy o content strategy)).2,
   fun _ => rfl⟩

/-- Witness for C2: a lookup of the never-inserted id `"x"` after a
successful known-header recovery still returns `none`. -/
theorem cache_entry_iff_success_witness :
    get_decrypted_content
      ((attempt_decryption ⟨fun _ _ => [], fun _ => false⟩ [] "T" [80, 75, 3, 4]
        ⟨"known_header_analysis", "", 3/5, none, some "zip", none⟩).2) "x" = none :=
  (cache_entry_iff_success ⟨fun _ _ => [], fun _ => false⟩ [] "T" [80, 75, 3, 4]
    ⟨"known_header_analysis", "", 3/5, none, some "zip", none⟩).2.1 "x" rfl (by decide)

theorem analyze_byte_distribution_ok (content : List Nat)
    (hvalid : ∀ b ∈ content, b < 256) :
    ∃ d, analyze_byte_distribution content = Except.ok d := by
  by_cases hlen : content.length = 0
  · exact ⟨none, by rw [analyze_byte_distribution, if_pos hlen]⟩
  · rcases content with _ | ⟨b, rest⟩
    · exact absurd rfl hlen
    · have hmem : b ∈ b :: rest := List.mem_cons_self _ _
      have hcount : 0 < (b :: rest).count b := List.count_pos_iff.mpr hmem
      have hbmem : byte_prob (b :: rest) b ∈ nonzero_freq_list (b :: rest) := by
        apply List.mem_filterMap.mpr
        refine ⟨b, ?_, ?_⟩
        · rw [List.mem_range]
          exact hvalid b hmem
        · rw [if_pos hcount]
      have hnz : nonzero_freq_list (b :: rest) ≠ [] := List.ne_nil_of_mem hbmem
      rcases hl : nonzero_freq_list (b :: rest) with _ | ⟨f, fs⟩
      · exact absurd hl hnz
      · rcases hres : analyze_byte_distribution (b :: rest) with er | d
        · exfalso
          rw [analyze_byte_distribution, if_neg hlen, hl] at hres
          simp at hres
        · exact ⟨d, rfl⟩

/-- C4: `analyze_encryption` is total on byte buffers — for every valid
buffer (including the empty one) it returns a structured result and never
propagates an exception; and any internal exception raised inside a recovery
strategy branch is converted by `attempt_decryption` into a failed outcome
with confidence 0 and the message recorded under `details.error`, the cache
left untouched. -/
theorem analyze_total_and_error_converted :
    (∀ content : List Nat, (∀ b ∈ content, b < 256) →
      ∃ a, analyze_encryption content = Except.ok a) ∧
    (∀ (o : Oracle) (cache : List (String × List Nat)) (ts : String) (content : List Nat)
      (strategy : Strategy) (e : String),
      run_strategy o content strategy = Except.error e →
      attempt_decryption o cache ts content strategy =
        (⟨"failed", none, 0, false, "Error during decryption: " ++ e, some e, none⟩, cache)) := by
  constructor
  · intro content hvalid
    obtain ⟨d, hd⟩ := analyze_byte_distribution_ok content hvalid
    rcases hres : analyze_encryption content with er | a
    · exfalso
      rw [analyze_encryption, hd] at hres
      simp [Except.map] at hres
    · exact ⟨a, rfl⟩
  · intro o cache ts content strategy e herr
    rw [attempt_decryption, herr]
    rfl

/-- Witness for C4: the empty-ish buffer `[0]` analyzes successfully, and a
`pattern_based_recovery` strategy with `block_size = 0` (whose Python branch
raises `ValueError`) is converted into the failed outcome. -/
theorem analyze_total_and_error_converted_witness :
    (∃ a, analyze_encryption [0] = Except.ok a) ∧
    attempt_decryption ⟨fun _ _ => [], fun _ => false⟩ [] "T" [1]
        ⟨"pattern_based_recovery", "", 1/2, none, none, some 0⟩ =
      (⟨"failed", none, 0, false, "Error during decryption: range() arg 3 must not be zero",
        some "range() arg 3 must not be zero", none⟩, []) :=
  ⟨analyze_total_and_error_converted.1 [0] (by decide),
   analyze_total_and_error_converted.2 ⟨fun _ _ => [], fun _ => false⟩ [] "T" [1]
     ⟨"pattern_based_recovery", "", 1/2, none, none, some 0⟩
     "range() arg 3 must not be zero" rfl⟩

theorem run_zip_header_4 :
    run_strategy ⟨fun _ _ => [], fun _ => false⟩ [80, 75, 3, 4]
      ⟨"known_header_analysis", "", 3/5, none, some "zip", none⟩ =
      Except.ok ⟨some [80, 75, 3, 4], 4/5, true, none⟩ := rfl

theorem run_zip_header_5 :
    run_strategy ⟨fun _ _ => [], fun _ => false⟩ [80, 75, 3, 4, 7]
      ⟨"known_header_analysis", "", 3/5, none, some "zip", none⟩ =
      Except.ok ⟨some [80, 75, 3, 4, 7], 4/5, true, none⟩ := rfl

/-- C6 evidence (code bug): the attempt identifier is minted from a
seconds-resolution timestamp, so two successful recover calls within the same
wall-clock second mint the SAME key `decryption_20260101000000`; the second
call overwrites the first's entry, and afterwards the cache holds a single
entry containing only the second buffer — the first recovered buffer is
lost, contradicting freshness/no-overwrite. -/
theorem same_second_attempts_overwrite :
    ((attempt_decryption ⟨fun _ _ => [], fun _ => false⟩ [] "20260101000000" [80, 75, 3, 4]
        ⟨"known_header_analysis", "", 3/5, none, some "zip", none⟩).1.success_level =
      "partial") ∧
    ((attempt_decryption ⟨fun _ _ => [], fun _ => false⟩
        (attempt_decryption ⟨fun _ _ => [], fun _ => false⟩ [] "20260101000000" [80, 75, 3, 4]
          ⟨"known_header_analysis", "", 3/5, none, some "zip", none⟩).2
        "20260101000000" [80, 75, 3, 4, 7]
        ⟨"known_header_analysis", "", 3/5, none, some "zip", none⟩).1.success_level =
      "partial") ∧
    ((attempt_decryption ⟨fun _ _ => [], fun _ => false⟩
        (attempt_decryption ⟨fun _ _ => [], fun _ => false⟩ [] "20260101000000" [80, 75, 3, 4]
          ⟨"known_header_analysis", "", 3/5, none, some "zip", none⟩).2
        "20260101000000" [80, 75, 3, 4, 7]
        ⟨"known_header_analysis", "", 3/5, none, some "zip", none⟩).2 =
      [("decryption_20260101000000", [80, 75, 3, 4, 7])]) ∧
    (get_decrypted_content
      ((attempt_decryption ⟨fun _ _ => [], fun _ => false⟩
        (attempt_decryption ⟨fun _ _ => [], fun _ => false⟩ [] "20260101000000" [80, 75, 3, 4]
          ⟨"known_header_analysis", "", 3/5, none, some "zip", none⟩).2
        "20260101000000" [80, 75, 3, 4, 7]
        ⟨"known_header_analysis", "", 3/5, none, some "zip", none⟩).2)
      "decryption_20260101000000" = some [80, 75, 3, 4, 7]) := by
  have hc1 : ¬ (4:ℚ)/5 < 4/5 := lt_irrefl _
  have hc2 : (3:ℚ)/10 < 4/5 := by norm_num
  have h1 : attempt_decryption ⟨fun _ _ => [], fun _ => false⟩ [] "20260101000000" [80, 75, 3, 4]
      ⟨"known_header_analysis", "", 3/5, none, some "zip", none⟩ =
      (⟨"partial", some [80, 75, 3, 4], 4/5, true, "File partially decrypted", none,
        some "decryption_20260101000000"⟩,
       [("decryption_20260101000000", [80, 75, 3, 4])]) := by
    rw [attempt_decryption, run_zip_header_4,
      process_result_ok_mid _ _ 80 [75, 3, 4] (4/5) true none hc1 hc2]
    rfl
  have h2 : attempt_decryption ⟨fun _ _ => [], fun _ => false⟩
      [("decryption_20260101000000", [80, 75, 3, 4])] "20260101000000" [80, 75, 3, 4, 7]
      ⟨"known_header_analysis", "", 3/5, none, some "zip", none⟩ =
      (⟨"partial", some [80, 75, 3, 4, 7], 4/5, true, "File partially decrypted", none,
        some "decryption_20260101000000"⟩,
       [("decryption_20260101000000", [80, 75, 3, 4, 7])]) := by
    rw [attempt_decryption, run_zip_header_5,
      process_result_ok_mid _ _ 80 [75, 3, 4, 7] (4/5) true none hc1 hc2]
    rfl
  rw [h1, h2]
  exact ⟨rfl, rfl, rfl, rfl⟩

/-- C3: the classifier is a pure deterministic function of the profile and
follows the ordered entropy bands with the stated comparison operators, first
match winning: above 7.8 the AES-ECB / strong-uniform / strong-unknown
labels; in (7.0, 7.8] the XOR / medium-strength labels; in (6.0, 7.0] the
weak-over-file-type / simple-encoding labels; at or below 6.0 the
ransomware-marker / no-encryption labels. -/
theorem classifier_banding (entropy : ℝ) (dist : Option DistStats)
    (header : HeaderAnalysis) (patterns : PatternFlags) :
    (7.8 < entropy → patterns.has_repeating_blocks = true →
      determine_encryption_type entropy dist header patterns = "AES-ECB") ∧
    (7.8 < entropy → patterns.has_repeating_blocks = false →
      (dist.map (fun s => s.is_uniform)).getD false = true →
      determine_encryption_type entropy dist header patterns =
        "Strong encryption (AES/RSA)") ∧
    (7.8 < entropy → patterns.has_repeating_blocks = false →
      (dist.map (fun s => s.is_uniform)).getD false = false →
      determine_encryption_type entropy dist header patterns =
        "Strong encryption (unknown type)") ∧
    (7 < entropy → entropy ≤ 7.8 → patterns.possible_xor = true →
      determine_encryption_type entropy dist header patterns = "XOR encryption") ∧
    (7 < entropy → entropy ≤ 7.8 → patterns.possible_xor = false →
      determine_encryption_type entropy dist header patterns =
        "Medium-strength encryption (possibly RC4, DES)") ∧
    (6 < entropy → entropy ≤ 7 → header.file_type ≠ "unknown" →
      determine_encryption_type entropy dist header patterns =
        "Weak encryption over " ++ header.file_type ++ " file") ∧
    (6 < entropy → entropy ≤ 7 → header.file_type = "unknown" →
      determine_encryption_type entropy dist header patterns =
        "Simple encryption or encoding") ∧
    (entropy ≤ 6 → patterns.has_ransomware_markers = true →
      determine_encryption_type entropy dist header patterns =
        "Possible ransomware marker, no strong encryption") ∧
    (entropy ≤ 6 → patterns.has_ransomware_markers = false →
      determine_encryption_type entropy dist header patterns =
        "No encryption detected") := by
  refine ⟨?_, ?_, ?_, ?_, ?_, ?_, ?_, ?_, ?_⟩
  · intro he hr
    simp only [determine_encryption_type]
    rw [if_pos he, if_pos hr]
  · intro he hr hu
    simp only [determine_encryption_type]
    rw [if_pos he, if_neg (by rw [hr]; exact Bool.false_ne_true), if_pos hu]
  · intro he hr hu
    simp only [determine_encryption_type]
    rw [if_pos he, if_neg (by rw [hr]; exact Bool.false_ne_true),
      if_neg (by rw [hu]; exact Bool.false_ne_true)]
  · intro h1 h2 hx
    simp only [determine_encryption_type]
    rw [if_neg (not_lt.mpr h2), if_pos h1, if_pos hx]
  · intro h1 h2 hx
    simp only [determine_encryption_type]
    rw [if_neg (not_lt.mpr h2), if_pos h1, if_neg (by rw [hx]; exact Bool.false_ne_true)]
  · intro h1 h2 hft
    simp only [determine_encryption_type]
    rw [if_neg (not_lt.mpr (le_trans h2 (by norm_num))), if_neg (not_lt.mpr h2),
      if_pos h1, if_pos hft]
  · intro h1 h2 hft
    simp only [determine_encryption_type]
    rw [if_neg (not_lt.mpr (le_trans h2 (by norm_num))), if_neg (not_lt.mpr h2),
      if_pos h1, if_neg (fun hne => hne hft)]
  · intro h1 hm
    simp only [determine_encryption_type]
    rw [if_neg (not_lt.mpr (le_trans h1 (by norm_num))),
      if_neg (not_lt.mpr (le_trans h1 (by norm_num))),
      if_neg (not_lt.mpr h1), if_pos hm]
  · intro h1 hm
    simp only [determine_encryption_type]
    rw [if_neg (not_lt.mpr (le_trans h1 (by norm_num))),
      if_neg (not_lt.mpr (le_trans h1 (by norm_num))),
      if_neg (not_lt.mpr h1), if_neg (by rw [hm]; exact Bool.false_ne_true)]

/-- Witness for C3: entropy 8 with repeating blocks flagged classifies as
AES-ECB. -/
theorem classifier_banding_witness :
    determine_encryption_type 8 none ⟨false, "unknown", false⟩ ⟨true, false, false⟩ =
      "AES-ECB" :=
  (classifier_banding 8 none ⟨false, "unknown", false⟩ ⟨true, false, false⟩).1
    (by norm_num) rfl
